import Mathlib

/-!
Verification of `scripts/import-constellation-lines.py`.

The script parses a CSV of constellation stick-figure line segments and
imports them into a two-table SQLite schema.  We embed the parser
(`ConstellationImporter.load`) and the importer
(`ConstellationImporter.import_to_db` with `_create_schema` and
`_insert_lines`) shallowly:

* a CSV row, as produced by `csv.DictReader`, is an association list from
  column name to cell text (a missing column gives `none`, like `dict.get`);
* `int(...)` failures and the `ValueError` raised on a count mismatch are
  modelled with `Except String`;
* the SQLite database is a record of the two tables plus the AUTOINCREMENT
  sequence for `constellation_line.line_id`.

Transaction model (Python `sqlite3`, legacy transaction control): the
`PRAGMA` statements and `executescript` run outside any transaction —
`executescript` commits any pending transaction first and the DDL statements
it executes take effect immediately, and `DROP TABLE` also deletes the
table's `sqlite_sequence` entry so `line_id` restarts at 1.  The subsequent
`INSERT`s open one implicit transaction that `conn.commit()` commits; on a
raised error the `with sqlite3.connect(...)` block rolls that transaction
back, leaving the freshly created empty tables.  The one way an insert in
this script can fail is the sqlite3 parameter-binding `OverflowError` for an
integer outside the signed 64-bit range.
-/

deriving instance DecidableEq for Except

/-- A CSV row from `csv.DictReader`: column name ↦ cell text. -/
structure Row where
  cells : List (String × String)
deriving DecidableEq, Repr

/-- `raw.get(column)`: first binding of the key, `none` when the column is
absent from the header. -/
def Row.get (r : Row) (k : String) : Option String :=
  (r.cells.find? (fun p => p.1 == k)).map (fun p => p.2)

/-- `STAR_COLUMNS = tuple(f"s{i:02d}" for i in range(1, 32))`. -/
def STAR_COLUMNS : List String :=
  ["s01", "s02", "s03", "s04", "s05", "s06", "s07", "s08",
   "s09", "s10", "s11", "s12", "s13", "s14", "s15", "s16",
   "s17", "s18", "s19", "s20", "s21", "s22", "s23", "s24",
   "s25", "s26", "s27", "s28", "s29", "s30", "s31"]

/-- One parsed line record (the `ConstellationLine` dataclass). -/
structure ConstellationLine where
  constellation : String
  line_number : Nat
  star_ids : List Int
deriving DecidableEq, Repr, Inhabited

/-- The whitespace characters Python `str.strip()` removes (the ASCII ones;
the dataset is ASCII). -/
def isPySpace (c : Char) : Bool :=
  c = ' ' || c = '\t' || c = '\n' || c = '\r' || c = '\x0b' || c = '\x0c'

/-- Python `str.strip()`: drop leading and trailing whitespace. -/
def pyStrip (s : String) : String :=
  ⟨((s.data.dropWhile isPySpace).reverse.dropWhile isPySpace).reverse⟩

/-- Fold step for a digit string: accumulate a base-10 value, failing on a
non-digit character. -/
def digitStep : Option Nat → Char → Option Nat
  | none, _ => none
  | some n, c => if c.isDigit then some (10 * n + (c.toNat - 48)) else none

/-- Base-10 value of a non-empty all-digit character list. -/
def digitsToNat? (cs : List Char) : Option Nat :=
  if cs.isEmpty then none else cs.foldl digitStep (some 0)

/-- Model of Python `int(str)` on already-stripped text: an optional sign
followed by one or more decimal digits.  (Python additionally accepts
digit-group underscores and non-ASCII digits; the script's data never uses
those and no claim depends on them.) -/
def strToInt? (s : String) : Option Int :=
  match s.data with
  | '-' :: rest => (digitsToNat? rest).map (fun n => -(n : Int))
  | '+' :: rest => (digitsToNat? rest).map (fun n => (n : Int))
  | cs => (digitsToNat? cs).map (fun n => (n : Int))

/-- `ConstellationImporter._parse_int`: `None` and blank cells give `None`,
otherwise `int(stripped)` (which raises on non-integer text). -/
def parse_int : Option String → Except String (Option Int)
  | none => Except.ok none
  | some raw =>
    if pyStrip raw = "" then Except.ok none
    else
      match strToInt? (pyStrip raw) with
      | some v => Except.ok (some v)
      | none => Except.error ("invalid literal for int: " ++ pyStrip raw)

/-- `(raw.get("abr") or "").strip()`. -/
def rowAbbr (r : Row) : String :=
  pyStrip ((r.get "abr").getD "")

/-- `per_constellation_counter` lookup with a default.  (`dict[k]` in the
script is only evaluated at keys `setdefault` has inserted, so the default
is never the value read.) -/
def dictGetD (d : List (String × Nat)) (k : String) (dflt : Nat) : Nat :=
  ((d.find? (fun p => p.1 == k)).map (fun p => p.2)).getD dflt

/-- `dict.__contains__`. -/
def dictHasKey (d : List (String × Nat)) (k : String) : Bool :=
  (d.find? (fun p => p.1 == k)).isSome

/-- `per_constellation_counter.setdefault(k, v)`. -/
def dictSetdefault (d : List (String × Nat)) (k : String) (v : Nat) :
    List (String × Nat) :=
  if dictHasKey d k then d else d ++ [(k, v)]

/-- `per_constellation_counter[k] += 1`: update the binding of `k` in
place (keys are unique: `setdefault` appends a key only when absent; the
key is always present when the script executes this statement, since it
was inserted by `setdefault` when the current constellation was
established). -/
def dictBump : List (String × Nat) → String → List (String × Nat)
  | [], _ => []
  | p :: d, k => if p.1 == k then (p.1, p.2 + 1) :: d else p :: dictBump d k

/-- `star_total is not None and star_total != len(star_ids)`. -/
def countMismatch (star_total : Option Int) (n : Nat) : Bool :=
  match star_total with
  | some t => t != (n : Int)
  | none => false

/-- The loop state of `ConstellationImporter.load`: the current
constellation carried across rows, the per-constellation counters and the
records accumulated so far. -/
structure LoadState where
  current : String
  counters : List (String × Nat)
  lines : List ConstellationLine
deriving DecidableEq, Repr

/-- Parse the star cells of a row in column order, propagating the first
`int(...)` failure (the Python generator is consumed left to right). -/
def parseStarCells (r : Row) : List String → Except String (List (Option Int))
  | [] => Except.ok []
  | c :: cols =>
    match parse_int (r.get c) with
    | Except.error e => Except.error e
    | Except.ok v =>
      match parseStarCells r cols with
      | Except.error e => Except.error e
      | Except.ok vs => Except.ok (v :: vs)

/-- One iteration of the row loop in `ConstellationImporter.load`. -/
def processRow (st : LoadState) (r : Row) : Except String LoadState :=
  let abbr := rowAbbr r
  if abbr = "" ∧ st.current = "" then
    -- CSV may start with blank abbreviation; treat as invalid row.
    Except.ok st
  else
    let current := if abbr = "" then st.current else abbr
    let counters0 := if abbr = "" then st.counters else dictSetdefault st.counters abbr 0
    match parse_int (r.get "nr") with
    | Except.error e => Except.error e
    | Except.ok star_total =>
      match parseStarCells r STAR_COLUMNS with
      | Except.error e => Except.error e
      | Except.ok cells =>
        let star_ids := cells.filterMap id
        if countMismatch star_total star_ids.length then
          Except.error ("Row for " ++ current ++ " expected stars mismatch")
        else if star_ids.isEmpty then
          Except.ok ⟨current, counters0, st.lines⟩
        else
          let counters1 := dictBump counters0 current
          let line_number := dictGetD counters1 current 0
          Except.ok ⟨current, counters1,
            st.lines ++ [⟨current, line_number, star_ids⟩]⟩

/-- The row loop of `ConstellationImporter.load`, starting from loop
state `st`. -/
def loadFrom (st : LoadState) : List Row → Except String LoadState
  | [] => Except.ok st
  | r :: rows =>
    match processRow st r with
    | Except.error e => Except.error e
    | Except.ok st2 => loadFrom st2 rows

/-- `ConstellationImporter.load` on the parsed CSV rows (the
file-existence check is I/O and outside this model). -/
def load (rows : List Row) : Except String (List ConstellationLine) :=
  match loadFrom ⟨"", [], []⟩ rows with
  | Except.error e => Except.error e
  | Except.ok st => Except.ok st.lines

/-- A row of table `constellation_line`. -/
structure LineRow where
  line_id : Nat
  constellation : String
  line_number : Nat
  star_count : Nat
deriving DecidableEq, Repr, Inhabited

/-- A row of table `constellation_line_star`. -/
structure StarRow where
  line_id : Nat
  sequence_index : Nat
  bsc_number : Int
deriving DecidableEq, Repr, Inhabited

/-- The database: both tables in insertion order plus the AUTOINCREMENT
sequence value for `constellation_line.line_id`. -/
structure DB where
  constellation_line : List LineRow
  constellation_line_star : List StarRow
  next_line_id : Nat
deriving DecidableEq, Repr

/-- `ConstellationImporter._create_schema`: `DROP TABLE IF EXISTS` on both
tables followed by `CREATE TABLE`/`CREATE INDEX`.  Dropping a table also
deletes its `sqlite_sequence` entry, so the AUTOINCREMENT key restarts
at 1. -/
def create_schema (_db : DB) : DB :=
  ⟨[], [], 1⟩

/-- `v` is in the signed 64-bit range `[-2^63, 2^63)`: for `v = n ≥ 0` this
is `n ≤ 2^63 - 1`, and for `v = -(n+1)` it is `n + 1 ≤ 2^63`, i.e. again
`n ≤ 2^63 - 1`. -/
def fitsInt64 : Int → Bool
  | Int.ofNat n => Nat.ble n 9223372036854775807
  | Int.negSucc n => Nat.ble n 9223372036854775807

/-- sqlite3 parameter binding of a Python int: values outside the signed
64-bit range raise `OverflowError` before the statement executes. -/
def bindInt64 (v : Int) : Except String Int :=
  if fitsInt64 v then Except.ok v
  else Except.error "OverflowError: Python int too large to convert to SQLite INTEGER"

/-- The `cursor.executemany` over `enumerate(line.star_ids)`: one
`constellation_line_star` insert per star id, `sequence_index` starting
at 1.  (The composite primary key cannot conflict here: `line_id` is a fresh
`lastrowid` and the sequence indices are distinct, so the constraint is not
modelled.) -/
def insertStars (db : DB) (lid : Nat) (seq : Nat) :
    List Int → Except String DB
  | [] => Except.ok db
  | s :: rest =>
    match bindInt64 (lid : Int) with
    | Except.error e => Except.error e
    | Except.ok _ =>
      match bindInt64 (seq : Int) with
      | Except.error e => Except.error e
      | Except.ok _ =>
        match bindInt64 s with
        | Except.error e => Except.error e
        | Except.ok _ =>
          insertStars
            { db with constellation_line_star :=
                db.constellation_line_star ++ [⟨lid, seq, s⟩] }
            lid (seq + 1) rest

/-- One iteration of the loop in `ConstellationImporter._insert_lines`:
insert the `constellation_line` row, capture `lastrowid`, then insert its
star rows. -/
def insertLine (db : DB) (l : ConstellationLine) : Except String DB :=
  match bindInt64 (l.line_number : Int) with
  | Except.error e => Except.error e
  | Except.ok _ =>
    match bindInt64 (l.star_ids.length : Int) with
    | Except.error e => Except.error e
    | Except.ok _ =>
      let lid := db.next_line_id
      insertStars
        { db with
            constellation_line :=
              db.constellation_line ++ [⟨lid, l.constellation, l.line_number, l.star_ids.length⟩],
            next_line_id := lid + 1 }
        lid 1 l.star_ids

/-- `ConstellationImporter._insert_lines` over the record list. -/
def insert_lines (db : DB) : List ConstellationLine → Except String DB
  | [] => Except.ok db
  | l :: rest =>
    match insertLine db l with
    | Except.error e => Except.error e
    | Except.ok db2 => insert_lines db2 rest

/-- `ConstellationImporter.import_to_db`: the DDL of `_create_schema` takes
effect immediately (`executescript` runs it outside the insert
transaction); the inserts form one transaction that `conn.commit()`
commits, and that the connection context manager rolls back when an insert
raises.  The result is the committed database together with the outcome. -/
def import_to_db (db : DB) (lines : List ConstellationLine) :
    DB × Except String Unit :=
  match insert_lines (create_schema db) lines with
  | Except.ok db2 => (db2, Except.ok ())
  | Except.error e => (create_schema db, Except.error e)

/-! ## Shape of a successful import -/

/-- The `constellation_line` row inserted for record `l` when the generated
key is `lid`. -/
def lineRowOf (lid : Nat) (l : ConstellationLine) : LineRow :=
  ⟨lid, l.constellation, l.line_number, l.star_ids.length⟩

/-- The `constellation_line_star` rows for star ids `stars` of line `lid`,
sequence indices counting from `seq`. -/
def starRowsFrom (lid seq : Nat) : List Int → List StarRow
  | [] => []
  | s :: rest => ⟨lid, seq, s⟩ :: starRowsFrom lid (seq + 1) rest

/-- The `constellation_line` table produced for `lines` when the generated
keys count from `n`. -/
def linesTableFrom (n : Nat) : List ConstellationLine → List LineRow
  | [] => []
  | l :: ls => lineRowOf n l :: linesTableFrom (n + 1) ls

/-- The `constellation_line_star` table produced for `lines` when the
generated keys count from `n`. -/
def starsTableFrom (n : Nat) : List ConstellationLine → List StarRow
  | [] => []
  | l :: ls => starRowsFrom n 1 l.star_ids ++ starsTableFrom (n + 1) ls

/-! ## Spec-side descriptions of the parser's behaviour -/

/-- Value of a parse that is known to have succeeded. -/
def okValD (e : Except String (Option Int)) : Option Int :=
  match e with
  | Except.ok v => v
  | Except.error _ => none

/-- A row is well formed when its `nr` cell and all 31 star cells are blank,
absent, or integer text (so none of the `int(...)` calls raises). -/
def rowWF (r : Row) : Bool :=
  (parse_int (r.get "nr")).isOk
    && STAR_COLUMNS.all (fun c => (parse_int (r.get c)).isOk)

/-- The star ids a well-formed row yields: the parsed values of its
non-blank star cells, in column order. -/
def rowStarIds (r : Row) : List Int :=
  STAR_COLUMNS.filterMap (fun c => okValD (parse_int (r.get c)))

/-- The declared star count of a well-formed row (`nr`), if present. -/
def rowDeclared (r : Row) : Option Int :=
  okValD (parse_int (r.get "nr"))

/-- The row declares a star count that disagrees with the number of star
cells it supplies. -/
def rowMismatch (r : Row) : Bool :=
  countMismatch (rowDeclared r) (rowStarIds r).length

/-- The rows the loop actually processes (does not skip): every row from
the first one with a non-blank abbreviation onward; `estab` records whether
a current constellation is already established. -/
def processedRows : Bool → List Row → List Row
  | _, [] => []
  | estab, r :: rows =>
    if rowAbbr r ≠ "" then r :: processedRows true rows
    else if estab then r :: processedRows true rows
    else processedRows false rows

/-- The last non-blank (stripped) abbreviation of `rows`, starting from
carry-over value `c`. -/
def lastAbbr (c : String) : List Row → String
  | [] => c
  | r :: rows => lastAbbr (if rowAbbr r = "" then c else rowAbbr r) rows

/-- Append blank cells for the `nr` and star columns: a column the header
lacks then reads back as a blank cell for the keys it previously lacked
(`Row.get` returns the first binding, so present columns are unchanged). -/
def fillMissing (r : Row) : Row :=
  ⟨r.cells ++ ("nr" :: STAR_COLUMNS).map (fun c => (c, ""))⟩


/-- The current constellation after the carry-over step of a processed
row. -/
def procCurrent (st : LoadState) (r : Row) : String :=
  if rowAbbr r = "" then st.current else rowAbbr r

/-- The counter dictionary after the `setdefault` step of a processed
row. -/
def procCounters (st : LoadState) (r : Row) : List (String × Nat) :=
  if rowAbbr r = "" then st.counters else dictSetdefault st.counters (rowAbbr r) 0

/-- A one-row input whose only star cell `s01` holds the text `s`. -/
def starCellRow (s : String) : Row :=
  ⟨[("abr", "AND"), ("s01", s)]⟩

theorem starRowsFrom_length (stars : List Int) :
    ∀ lid seq, (starRowsFrom lid seq stars).length = stars.length := by
  induction stars with
  | nil => intro lid seq; rfl
  | cons s rest ih => intro lid seq; simp [starRowsFrom, ih]

theorem linesTableFrom_length (lines : List ConstellationLine) :
    ∀ n, (linesTableFrom n lines).length = lines.length := by
  induction lines with
  | nil => intro n; rfl
  | cons l ls ih => intro n; simp [linesTableFrom, ih]

theorem starsTableFrom_length (lines : List ConstellationLine) :
    ∀ n, (starsTableFrom n lines).length
      = (lines.map (fun l => l.star_ids.length)).sum := by
  induction lines with
  | nil => intro n; rfl
  | cons l ls ih => intro n; simp [starsTableFrom, starRowsFrom_length, ih]

set_option maxRecDepth 4000 in
theorem insertStars_ok (stars : List Int) :
    ∀ db lid seq db', insertStars db lid seq stars = Except.ok db' →
      db'.constellation_line = db.constellation_line ∧
      db'.next_line_id = db.next_line_id ∧
      db'.constellation_line_star
        = db.constellation_line_star ++ starRowsFrom lid seq stars := by
  induction stars with
  | nil =>
    intro db lid seq db' h
    cases h
    simp [starRowsFrom]
  | cons s rest ih =>
    intro db lid seq db' h
    unfold insertStars at h
    split at h
    · cases h
    · split at h
      · cases h
      · split at h
        · cases h
        · have h2 := ih _ lid (seq + 1) db' h
          simpa [starRowsFrom, List.append_assoc] using h2

set_option maxRecDepth 4000 in
theorem insertLine_ok (db : DB) (l : ConstellationLine) (db' : DB)
    (h : insertLine db l = Except.ok db') :
    db'.constellation_line
      = db.constellation_line ++ [lineRowOf db.next_line_id l] ∧
    db'.next_line_id = db.next_line_id + 1 ∧
    db'.constellation_line_star
      = db.constellation_line_star
        ++ starRowsFrom db.next_line_id 1 l.star_ids := by
  unfold insertLine at h
  split at h
  · cases h
  · split at h
    · cases h
    · have h2 := insertStars_ok l.star_ids _ db.next_line_id 1 db' h
      simpa [lineRowOf] using h2

theorem insert_lines_ok (lines : List ConstellationLine) :
    ∀ db db', insert_lines db lines = Except.ok db' →
      db'.constellation_line
        = db.constellation_line ++ linesTableFrom db.next_line_id lines ∧
      db'.next_line_id = db.next_line_id + lines.length ∧
      db'.constellation_line_star
        = db.constellation_line_star
          ++ starsTableFrom db.next_line_id lines := by
  induction lines with
  | nil =>
    intro db db' h
    cases h
    simp [linesTableFrom, starsTableFrom]
  | cons l ls ih =>
    intro db db' h
    unfold insert_lines at h
    split at h
    · cases h
    case _ db2 hl =>
      have h1 := insertLine_ok db l db2 hl
      have h2 := ih db2 db' h
      refine ⟨?_, ?_, ?_⟩
      · rw [h2.1, h1.1, h1.2.1, linesTableFrom, List.append_assoc]
        simp
      · rw [h2.2.1, h1.2.1, List.length_cons]
        omega
      · rw [h2.2.2, h1.2.2, h1.2.1, starsTableFrom, List.append_assoc]

/-- A successful `import_to_db` leaves exactly the freshly built tables:
keys count from 1 and the two tables have the canonical shapes. -/
theorem import_to_db_ok (db : DB) (lines : List ConstellationLine) (db' : DB)
    (h : import_to_db db lines = (db', Except.ok ())) :
    db'.constellation_line = linesTableFrom 1 lines ∧
    db'.constellation_line_star = starsTableFrom 1 lines ∧
    db'.next_line_id = 1 + lines.length := by
  cases hins : insert_lines (create_schema db) lines with
  | ok db2 =>
    simp only [import_to_db, hins] at h
    injection h with hfst hsnd
    subst hfst
    have h2 := insert_lines_ok lines (create_schema db) _ hins
    simp only [create_schema] at h2
    exact ⟨by simpa using h2.1, by simpa using h2.2.2, by simpa using h2.2.1⟩
  | error e =>
    simp only [import_to_db, hins] at h
    simp at h

/-- A failed `import_to_db` commits only the DDL: the rolled-back insert
transaction leaves the freshly recreated tables empty. -/
theorem import_to_db_error (db : DB) (lines : List ConstellationLine)
    (db' : DB) (e : String)
    (h : import_to_db db lines = (db', Except.error e)) :
    db' = ⟨[], [], 1⟩ := by
  cases hins : insert_lines (create_schema db) lines with
  | ok db2 =>
    simp only [import_to_db, hins] at h
    simp at h
  | error e2 =>
    simp only [import_to_db, hins] at h
    cases h
    rfl

theorem starRowsFrom_map_seq (stars : List Int) :
    ∀ lid seq, (starRowsFrom lid seq stars).map (fun s => s.sequence_index)
      = List.range' seq stars.length := by
  induction stars with
  | nil => intro lid seq; rfl
  | cons s rest ih =>
    intro lid seq
    simp [starRowsFrom, List.range'_succ, ih]

theorem starRowsFrom_map_bsc (stars : List Int) :
    ∀ lid seq, (starRowsFrom lid seq stars).map (fun s => s.bsc_number)
      = stars := by
  induction stars with
  | nil => intro lid seq; rfl
  | cons s rest ih => intro lid seq; simp [starRowsFrom, ih]

theorem starRowsFrom_filter_self (stars : List Int) :
    ∀ lid seq, (starRowsFrom lid seq stars).filter (fun s => s.line_id == lid)
      = starRowsFrom lid seq stars := by
  induction stars with
  | nil => intro lid seq; rfl
  | cons s rest ih =>
    intro lid seq
    simp [starRowsFrom, List.filter_cons, ih]

theorem starRowsFrom_filter_ne (stars : List Int) :
    ∀ lid seq k, k ≠ lid →
      (starRowsFrom lid seq stars).filter (fun s => s.line_id == k) = [] := by
  induction stars with
  | nil => intro lid seq k _; rfl
  | cons s rest ih =>
    intro lid seq k hk
    simp [starRowsFrom, List.filter_cons, Ne.symm hk, ih lid (seq + 1) k hk]

theorem starsTableFrom_filter_lt (lines : List ConstellationLine) :
    ∀ n k, k < n →
      (starsTableFrom n lines).filter (fun s => s.line_id == k) = [] := by
  induction lines with
  | nil => intro n k _; rfl
  | cons l ls ih =>
    intro n k hk
    simp only [starsTableFrom, List.filter_append]
    rw [starRowsFrom_filter_ne l.star_ids n 1 k (by omega),
      ih (n + 1) k (by omega)]
    rfl

theorem linesTableFrom_getD (lines : List ConstellationLine) :
    ∀ n i, i < lines.length →
      (linesTableFrom n lines).getD i default
        = lineRowOf (n + i) (lines.getD i default) := by
  induction lines with
  | nil => intro n i hi; simp at hi
  | cons l ls ih =>
    intro n i hi
    cases i with
    | zero => rfl
    | succ j =>
      have hj : j < ls.length := by simpa using hi
      simp only [linesTableFrom, List.getD_cons_succ]
      rw [ih (n + 1) j hj]
      have : n + 1 + j = n + (j + 1) := by omega
      rw [this]

theorem starsTableFrom_filter (lines : List ConstellationLine) :
    ∀ n i, i < lines.length →
      (starsTableFrom n lines).filter (fun s => s.line_id == n + i)
        = starRowsFrom (n + i) 1 (lines.getD i default).star_ids := by
  induction lines with
  | nil => intro n i hi; simp at hi
  | cons l ls ih =>
    intro n i hi
    cases i with
    | zero =>
      simp only [starsTableFrom, List.filter_append, Nat.add_zero]
      rw [starRowsFrom_filter_self, starsTableFrom_filter_lt ls (n + 1) n (by omega)]
      simp
    | succ j =>
      have hj : j < ls.length := by simpa using hi
      simp only [starsTableFrom, List.filter_append]
      rw [starRowsFrom_filter_ne l.star_ids n 1 (n + (j + 1)) (by omega)]
      have := ih (n + 1) j hj
      have harith : n + 1 + j = n + (j + 1) := by omega
      rw [harith] at this
      rw [this]
      simp

/-! ## Claim C1 (corrected) -/

/-- C1, counterexample to the claim as stated: with previously imported
data in the tables and a run whose single record carries the star id
`2^63` (too large for a SQLite integer), the insert raises, yet the
pre-run table contents do not survive: the committed drop/recreate leaves
`constellation_line` different from (indeed emptier than) its pre-run
contents. -/
theorem claim1_counterexample :
    (import_to_db ⟨[⟨1, "AND", 1, 2⟩], [⟨1, 1, 21⟩, ⟨1, 2, 31⟩], 2⟩
        [⟨"AND", 1, [9223372036854775808]⟩]).2 ≠ Except.ok ()
    ∧ (import_to_db ⟨[⟨1, "AND", 1, 2⟩], [⟨1, 1, 21⟩, ⟨1, 2, 31⟩], 2⟩
        [⟨"AND", 1, [9223372036854775808]⟩]).1.constellation_line
      ≠ [⟨1, "AND", 1, 2⟩] := by
  decide

/-- C1 (amended): if any insert performed during `import_to_db` fails with
a raised error, no row from the failed run is persisted — the insert
transaction rolls back — but the schema drop/recreate has already been
committed by `executescript`, so the database is left with freshly created
empty tables rather than its pre-run contents. -/
theorem claim1_failed_import_leaves_empty_tables
    (db : DB) (lines : List ConstellationLine) (db' : DB) (e : String)
    (h : import_to_db db lines = (db', Except.error e)) :
    db'.constellation_line = [] ∧ db'.constellation_line_star = [] := by
  have h2 := import_to_db_error db lines db' e h
  rw [h2]
  exact ⟨rfl, rfl⟩

theorem claim1_witness :
    (import_to_db ⟨[⟨1, "AND", 1, 2⟩], [⟨1, 1, 21⟩, ⟨1, 2, 31⟩], 2⟩
        [⟨"AND", 1, [9223372036854775808]⟩]
      = (⟨[], [], 1⟩,
         Except.error "OverflowError: Python int too large to convert to SQLite INTEGER"))
    ∧ ((⟨[], [], 1⟩ : DB).constellation_line = []
        ∧ (⟨[], [], 1⟩ : DB).constellation_line_star = []) :=
  ⟨by decide,
   claim1_failed_import_leaves_empty_tables
     ⟨[⟨1, "AND", 1, 2⟩], [⟨1, 1, 21⟩, ⟨1, 2, 31⟩], 2⟩
     [⟨"AND", 1, [9223372036854775808]⟩] ⟨[], [], 1⟩
     "OverflowError: Python int too large to convert to SQLite INTEGER"
     (by decide)⟩

/-! ## Claim C2 (confirmed) -/

/-- C2: running the full import (parse then persist) twice on the same
input CSV yields the identical final database — same table contents, same
generated `line_id` keys, same AUTOINCREMENT state — because the schema is
unconditionally dropped and recreated on every run (the second run's parse
of the same rows is the same pure function application `load rows`). -/
theorem claim2_import_twice_same_state
    (rows : List Row) (recs : List ConstellationLine) (db : DB)
    (_hparse : load rows = Except.ok recs) :
    import_to_db (import_to_db db recs).1 recs = import_to_db db recs := rfl

theorem claim2_witness :
    (load [⟨[("abr", "AND"), ("s01", "7"), ("s02", "8")]⟩]
      = Except.ok [⟨"AND", 1, [7, 8]⟩])
    ∧ import_to_db
        (import_to_db ⟨[], [], 1⟩ [⟨"AND", 1, [7, 8]⟩]).1 [⟨"AND", 1, [7, 8]⟩]
      = import_to_db ⟨[], [], 1⟩ [⟨"AND", 1, [7, 8]⟩] :=
  ⟨by decide,
   claim2_import_twice_same_state
     [⟨[("abr", "AND"), ("s01", "7"), ("s02", "8")]⟩]
     [⟨"AND", 1, [7, 8]⟩] ⟨[], [], 1⟩ (by decide)⟩

/-! ## Claim C7 (confirmed) -/

/-- C7: for every successfully imported record sequence, the number of
persisted `constellation_line` rows equals the number of records the
parser produced, and the number of persisted `constellation_line_star`
rows equals the sum of the lengths of the records' `star_ids`. -/
theorem claim7_persisted_row_counts
    (rows : List Row) (recs : List ConstellationLine) (db db' : DB)
    (_hparse : load rows = Except.ok recs)
    (himp : import_to_db db recs = (db', Except.ok ())) :
    db'.constellation_line.length = recs.length
    ∧ db'.constellation_line_star.length
      = (recs.map (fun l => l.star_ids.length)).sum := by
  have h := import_to_db_ok db recs db' himp
  rw [h.1, h.2.1, linesTableFrom_length, starsTableFrom_length]
  exact ⟨rfl, rfl⟩

theorem claim7_witness :
    (load [⟨[("abr", "AND"), ("s01", "7"), ("s02", "8")]⟩,
           ⟨[("abr", ""), ("s01", "9"), ("s02", "10"), ("s03", "11")]⟩]
      = Except.ok [⟨"AND", 1, [7, 8]⟩, ⟨"AND", 2, [9, 10, 11]⟩])
    ∧ (import_to_db ⟨[], [], 1⟩ [⟨"AND", 1, [7, 8]⟩, ⟨"AND", 2, [9, 10, 11]⟩]
      = (⟨[⟨1, "AND", 1, 2⟩, ⟨2, "AND", 2, 3⟩],
          [⟨1, 1, 7⟩, ⟨1, 2, 8⟩, ⟨2, 1, 9⟩, ⟨2, 2, 10⟩, ⟨2, 3, 11⟩], 3⟩,
         Except.ok ()))
    ∧ ((⟨[⟨1, "AND", 1, 2⟩, ⟨2, "AND", 2, 3⟩],
          [⟨1, 1, 7⟩, ⟨1, 2, 8⟩, ⟨2, 1, 9⟩, ⟨2, 2, 10⟩, ⟨2, 3, 11⟩], 3⟩ : DB).constellation_line.length
        = [⟨"AND", 1, [7, 8]⟩, (⟨"AND", 2, [9, 10, 11]⟩ : ConstellationLine)].length
      ∧ (⟨[⟨1, "AND", 1, 2⟩, ⟨2, "AND", 2, 3⟩],
          [⟨1, 1, 7⟩, ⟨1, 2, 8⟩, ⟨2, 1, 9⟩, ⟨2, 2, 10⟩, ⟨2, 3, 11⟩], 3⟩ : DB).constellation_line_star.length
        = ([⟨"AND", 1, [7, 8]⟩, (⟨"AND", 2, [9, 10, 11]⟩ : ConstellationLine)].map
            (fun l => l.star_ids.length)).sum) :=
  ⟨by decide, by decide,
   claim7_persisted_row_counts
     [⟨[("abr", "AND"), ("s01", "7"), ("s02", "8")]⟩,
      ⟨[("abr", ""), ("s01", "9"), ("s02", "10"), ("s03", "11")]⟩]
     [⟨"AND", 1, [7, 8]⟩, ⟨"AND", 2, [9, 10, 11]⟩]
     ⟨[], [], 1⟩
     ⟨[⟨1, "AND", 1, 2⟩, ⟨2, "AND", 2, 3⟩],
      [⟨1, 1, 7⟩, ⟨1, 2, 8⟩, ⟨2, 1, 9⟩, ⟨2, 2, 10⟩, ⟨2, 3, 11⟩], 3⟩
     (by decide) (by decide)⟩

/-! ## Claim C8 (confirmed) -/

/-- C8: after a successful import, for every row of `constellation_line`
its `star_count` equals the number of `constellation_line_star` rows
referencing its `line_id`, those rows' `sequence_index` values are exactly
`1..star_count` (in table order), and their `bsc_number` values in that
order are the corresponding parsed record's `star_ids`. -/
theorem claim8_star_rows_consistent
    (lines : List ConstellationLine) (db db' : DB)
    (himp : import_to_db db lines = (db', Except.ok ())) :
    ∀ i, i < db'.constellation_line.length →
      (db'.constellation_line_star.filter
          (fun s => s.line_id == (db'.constellation_line.getD i default).line_id)).length
        = (db'.constellation_line.getD i default).star_count
      ∧ (db'.constellation_line_star.filter
          (fun s => s.line_id == (db'.constellation_line.getD i default).line_id)).map
            (fun s => s.sequence_index)
        = List.range' 1 ((db'.constellation_line.getD i default).star_count)
      ∧ (db'.constellation_line_star.filter
          (fun s => s.line_id == (db'.constellation_line.getD i default).line_id)).map
            (fun s => s.bsc_number)
        = (lines.getD i default).star_ids := by
  obtain ⟨h1, h2, _⟩ := import_to_db_ok db lines db' himp
  intro i hi
  rw [h1] at hi
  rw [linesTableFrom_length] at hi
  rw [h1, h2, linesTableFrom_getD lines 1 i hi]
  have hline : (lineRowOf (1 + i) (lines.getD i default)).line_id = 1 + i := rfl
  have hcount : (lineRowOf (1 + i) (lines.getD i default)).star_count
      = (lines.getD i default).star_ids.length := rfl
  rw [hline, hcount, starsTableFrom_filter lines 1 i hi]
  exact ⟨starRowsFrom_length _ _ _,
    starRowsFrom_map_seq _ _ _,
    starRowsFrom_map_bsc _ _ _⟩

theorem claim8_witness :
    (import_to_db ⟨[], [], 1⟩ [⟨"AND", 1, [7, 8]⟩]
      = (⟨[⟨1, "AND", 1, 2⟩], [⟨1, 1, 7⟩, ⟨1, 2, 8⟩], 2⟩, Except.ok ()))
    ∧ 0 < (⟨[⟨1, "AND", 1, 2⟩], [⟨1, 1, 7⟩, ⟨1, 2, 8⟩], 2⟩ : DB).constellation_line.length
    ∧ (((⟨[⟨1, "AND", 1, 2⟩], [⟨1, 1, 7⟩, ⟨1, 2, 8⟩], 2⟩ : DB).constellation_line_star.filter
          (fun s => s.line_id
            == ((⟨[⟨1, "AND", 1, 2⟩], [⟨1, 1, 7⟩, ⟨1, 2, 8⟩], 2⟩ : DB).constellation_line.getD 0 default).line_id)).length
        = ((⟨[⟨1, "AND", 1, 2⟩], [⟨1, 1, 7⟩, ⟨1, 2, 8⟩], 2⟩ : DB).constellation_line.getD 0 default).star_count
      ∧ ((⟨[⟨1, "AND", 1, 2⟩], [⟨1, 1, 7⟩, ⟨1, 2, 8⟩], 2⟩ : DB).constellation_line_star.filter
          (fun s => s.line_id
            == ((⟨[⟨1, "AND", 1, 2⟩], [⟨1, 1, 7⟩, ⟨1, 2, 8⟩], 2⟩ : DB).constellation_line.getD 0 default).line_id)).map
            (fun s => s.sequence_index)
        = List.range' 1 (((⟨[⟨1, "AND", 1, 2⟩], [⟨1, 1, 7⟩, ⟨1, 2, 8⟩], 2⟩ : DB).constellation_line.getD 0 default).star_count)
      ∧ ((⟨[⟨1, "AND", 1, 2⟩], [⟨1, 1, 7⟩, ⟨1, 2, 8⟩], 2⟩ : DB).constellation_line_star.filter
          (fun s => s.line_id
            == ((⟨[⟨1, "AND", 1, 2⟩], [⟨1, 1, 7⟩, ⟨1, 2, 8⟩], 2⟩ : DB).constellation_line.getD 0 default).line_id)).map
            (fun s => s.bsc_number)
        = (([⟨"AND", 1, [7, 8]⟩] : List ConstellationLine).getD 0 default).star_ids) :=
  ⟨by decide, by decide,
   claim8_star_rows_consistent [⟨"AND", 1, [7, 8]⟩] ⟨[], [], 1⟩
     ⟨[⟨1, "AND", 1, 2⟩], [⟨1, 1, 7⟩, ⟨1, 2, 8⟩], 2⟩ (by decide) 0 (by decide)⟩

/-! ## Counter-dictionary lemmas -/

theorem dictGetD_setdefault_zero (d : List (String × Nat)) (k k' : String) :
    dictGetD (dictSetdefault d k 0) k' 0 = dictGetD d k' 0 := by
  unfold dictSetdefault
  by_cases h : dictHasKey d k = true
  · rw [if_pos h]
  · rw [if_neg h]
    unfold dictGetD
    rw [List.find?_append]
    cases hfind : d.find? (fun p => p.1 == k') with
    | some p => simp [hfind]
    | none =>
      by_cases hk : k == k'
      · have hkk : k = k' := by simpa using hk
        subst hkk
        unfold dictHasKey at h
        rw [hfind] at h
        simp [hfind, List.find?_cons, hk]
      · simp [hfind, List.find?_cons, hk]

theorem dictHasKey_setdefault_self (d : List (String × Nat)) (k : String)
    (v : Nat) : dictHasKey (dictSetdefault d k v) k = true := by
  unfold dictSetdefault
  by_cases h : dictHasKey d k = true
  · rw [if_pos h]; exact h
  · rw [if_neg h]
    unfold dictHasKey at h ⊢
    rw [List.find?_append]
    cases hfind : d.find? (fun p => p.1 == k) with
    | none => simp [List.find?_cons]
    | some p => rw [hfind] at h; simp at h

theorem dictHasKey_setdefault_of (d : List (String × Nat)) (k k' : String)
    (v : Nat) (h : dictHasKey d k' = true) :
    dictHasKey (dictSetdefault d k v) k' = true := by
  unfold dictSetdefault
  by_cases hk : dictHasKey d k = true
  · rw [if_pos hk]; exact h
  · rw [if_neg hk]
    unfold dictHasKey at h ⊢
    rw [List.find?_append]
    cases hfind : d.find? (fun p => p.1 == k') with
    | none => rw [hfind] at h; simp at h
    | some p => simp [hfind]

theorem dictGetD_bump_self (d : List (String × Nat)) (k : String)
    (h : dictHasKey d k = true) :
    dictGetD (dictBump d k) k 0 = dictGetD d k 0 + 1 := by
  unfold dictHasKey at h
  unfold dictGetD
  induction d with
  | nil => simp at h
  | cons p d ih =>
    by_cases hp : (p.1 == k) = true
    · simp only [dictBump, hp, ite_true, List.find?_cons]
      rfl
    · have hpf : (p.1 == k) = false := by simpa using hp
      rw [List.find?_cons, hpf] at h
      simp only [dictBump, hpf, Bool.false_eq_true, ite_false, List.find?_cons]
      exact ih h

theorem dictGetD_bump_ne (d : List (String × Nat)) (k k' : String)
    (h : k' ≠ k) : dictGetD (dictBump d k) k' 0 = dictGetD d k' 0 := by
  unfold dictGetD
  induction d with
  | nil => rfl
  | cons p d ih =>
    by_cases hp : (p.1 == k) = true
    · have hp' : (p.1 == k') = false := by
        have hq : p.1 = k := by simpa using hp
        simp [hq, Ne.symm h]
      simp only [dictBump, hp, ite_true, List.find?_cons, hp']
    · have hpf : (p.1 == k) = false := by simpa using hp
      simp only [dictBump, hpf, Bool.false_eq_true, ite_false, List.find?_cons]
      by_cases hq : (p.1 == k') = true
      · rw [hq]
      · have hqf : (p.1 == k') = false := by simpa using hq
        rw [hqf]
        exact ih

/-! ## Parser structural lemmas -/

theorem parseStarCells_length (r : Row) :
    ∀ cols cells, parseStarCells r cols = Except.ok cells →
      cells.length = cols.length := by
  intro cols
  induction cols with
  | nil =>
    intro cells h
    cases h
    rfl
  | cons c cols ih =>
    intro cells h
    unfold parseStarCells at h
    split at h
    · cases h
    · split at h
      · cases h
      · cases h
        simpa using ih _ (by assumption)

/-- Inversion of one accepted loop iteration: either the row is skipped
(blank abbreviation before any constellation is established), or its star
cells parse and the state advances with at most one appended record. -/
theorem processRow_ok_cases (st : LoadState) (r : Row) (st' : LoadState)
    (h : processRow st r = Except.ok st') :
    (rowAbbr r = "" ∧ st.current = "" ∧ st' = st)
    ∨ (¬(rowAbbr r = "" ∧ st.current = "")
       ∧ ∃ cells, parseStarCells r STAR_COLUMNS = Except.ok cells
         ∧ ((cells.filterMap id = []
              ∧ st' = ⟨procCurrent st r, procCounters st r, st.lines⟩)
            ∨ (cells.filterMap id ≠ []
              ∧ st' = ⟨procCurrent st r,
                  dictBump (procCounters st r) (procCurrent st r),
                  st.lines ++ [⟨procCurrent st r,
                    dictGetD (dictBump (procCounters st r) (procCurrent st r))
                      (procCurrent st r) 0,
                    cells.filterMap id⟩]⟩))) := by
  by_cases hg : rowAbbr r = "" ∧ st.current = ""
  · left
    refine ⟨hg.1, hg.2, ?_⟩
    simp only [processRow, if_pos hg] at h
    cases h
    rfl
  · right
    refine ⟨hg, ?_⟩
    simp only [processRow, if_neg hg] at h
    split at h
    · cases h
    · split at h
      · cases h
      · rename_i star_total _ cells hcells
        refine ⟨cells, hcells, ?_⟩
        split at h
        · cases h
        · split at h
          · rename_i hempty
            left
            cases h
            exact ⟨by simpa using hempty, by simp [procCurrent, procCounters]⟩
          · rename_i hempty
            right
            cases h
            refine ⟨by simpa using hempty, by simp [procCurrent, procCounters]⟩

theorem loadFrom_star_bounds (rows : List Row) :
    ∀ st st', loadFrom st rows = Except.ok st' →
      (∀ l ∈ st.lines, 1 ≤ l.star_ids.length ∧ l.star_ids.length ≤ 31) →
      ∀ l ∈ st'.lines, 1 ≤ l.star_ids.length ∧ l.star_ids.length ≤ 31 := by
  induction rows with
  | nil =>
    intro st st' h hinv
    cases h
    exact hinv
  | cons r rows ih =>
    intro st st' h hinv
    unfold loadFrom at h
    split at h
    · cases h
    · rename_i st2 hstep
      refine ih st2 st' h ?_
      rcases processRow_ok_cases st r st2 hstep with ⟨_, _, hst⟩ | ⟨_, cells, hcells, hcase⟩
      · rw [hst]; exact hinv
      · rcases hcase with ⟨_, hst⟩ | ⟨hne, hst⟩
        · rw [hst]; exact hinv
        · rw [hst]
          intro l hl
          rcases List.mem_append.mp hl with hold | hnew
          · exact hinv l hold
          · have heq : l = ⟨procCurrent st r,
                dictGetD (dictBump (procCounters st r) (procCurrent st r))
                  (procCurrent st r) 0, cells.filterMap id⟩ := by
              simpa using hnew
            subst heq
            constructor
            · exact List.length_pos.mpr hne
            · have h31 : cells.length = (31 : Nat) := by
                rw [parseStarCells_length r STAR_COLUMNS cells hcells]
                rfl
              have hle := List.length_filterMap_le id cells
              simp only [h31] at hle
              exact hle

/-! ## Claim C5 (corrected) -/

/-- C5, counterexample to the claim as stated: a row with a single
non-blank star cell is accepted, so `load` can produce a record whose
`star_ids` has exactly one entry, contradicting the claimed lower bound
of 2. -/
theorem claim5_counterexample :
    load [⟨[("abr", "AND"), ("s01", "5")]⟩]
      = Except.ok [⟨"AND", 1, [5]⟩]
    ∧ ¬(2 ≤ (([5] : List Int)).length) := by
  decide

/-- C5 (amended): every `ConstellationLine` record produced by `load` has
a `star_ids` sequence containing between 1 and 31 entries (never empty;
the code never rejects a single-star row, so 1 is attainable). -/
theorem claim5_star_ids_bounds (rows : List Row)
    (recs : List ConstellationLine) (h : load rows = Except.ok recs) :
    ∀ l ∈ recs, 1 ≤ l.star_ids.length ∧ l.star_ids.length ≤ 31 := by
  unfold load at h
  split at h
  · cases h
  · rename_i st hst
    cases h
    exact loadFrom_star_bounds rows ⟨"", [], []⟩ st hst (by intro l hl; simp at hl)

theorem claim5_witness :
    (load [⟨[("abr", "AND"), ("s01", "7"), ("s02", "8"), ("s03", "9")]⟩]
      = Except.ok [⟨"AND", 1, [7, 8, 9]⟩])
    ∧ (1 ≤ (ConstellationLine.mk "AND" 1 [7, 8, 9]).star_ids.length
        ∧ (ConstellationLine.mk "AND" 1 [7, 8, 9]).star_ids.length ≤ 31) :=
  ⟨by decide,
   claim5_star_ids_bounds
     [⟨[("abr", "AND"), ("s01", "7"), ("s02", "8"), ("s03", "9")]⟩]
     [⟨"AND", 1, [7, 8, 9]⟩] (by decide)
     ⟨"AND", 1, [7, 8, 9]⟩ (by decide)⟩

theorem dictHasKey_bump (d : List (String × Nat)) (k k' : String) :
    dictHasKey (dictBump d k) k' = dictHasKey d k' := by
  unfold dictHasKey
  induction d with
  | nil => rfl
  | cons p d ih =>
    by_cases hp : (p.1 == k) = true
    · by_cases hq : (p.1 == k') = true
      · simp [dictBump, hp, List.find?_cons, hq]
      · have hqf : (p.1 == k') = false := by simpa using hq
        simp [dictBump, hp, List.find?_cons, hqf]
    · have hpf : (p.1 == k) = false := by simpa using hp
      by_cases hq : (p.1 == k') = true
      · simp [dictBump, hpf, List.find?_cons, hq]
      · have hqf : (p.1 == k') = false := by simpa using hq
        simp only [dictBump, hpf, Bool.false_eq_true, ite_false,
          List.find?_cons, hqf]
        exact ih

theorem loadFrom_numbering (rows : List Row) :
    ∀ st st', loadFrom st rows = Except.ok st' →
      (st.current ≠ "" → dictHasKey st.counters st.current = true) →
      (∀ code, (st.lines.filter (fun l => l.constellation == code)).map
          (fun l => l.line_number) = List.range' 1 (dictGetD st.counters code 0)) →
      ((st'.current ≠ "" → dictHasKey st'.counters st'.current = true) ∧
       ∀ code, (st'.lines.filter (fun l => l.constellation == code)).map
          (fun l => l.line_number) = List.range' 1 (dictGetD st'.counters code 0)) := by
  induction rows with
  | nil =>
    intro st st' h h1 h2
    cases h
    exact ⟨h1, h2⟩
  | cons r rows ih =>
    intro st st' h h1 h2
    unfold loadFrom at h
    split at h
    · cases h
    · rename_i st2 hstep
      rcases processRow_ok_cases st r st2 hstep with ⟨_, _, hst⟩ | ⟨hg, cells, hcells, hcase⟩
      · subst hst
        exact ih _ st' h h1 h2
      · -- the processed current constellation and its key
        have hcur_ne : procCurrent st r ≠ "" := by
          unfold procCurrent
          by_cases hb : rowAbbr r = ""
          · rw [if_pos hb]
            intro hc
            exact hg ⟨hb, hc⟩
          · rw [if_neg hb]
            exact hb
        have hkey0 : dictHasKey (procCounters st r) (procCurrent st r) = true := by
          unfold procCurrent procCounters
          by_cases hb : rowAbbr r = ""
          · rw [if_pos hb, if_pos hb]
            refine h1 ?_
            intro hc
            exact hg ⟨hb, hc⟩
          · rw [if_neg hb, if_neg hb]
            exact dictHasKey_setdefault_self st.counters (rowAbbr r) 0
        have hget0 : ∀ code, dictGetD (procCounters st r) code 0
            = dictGetD st.counters code 0 := by
          intro code
          unfold procCounters
          by_cases hb : rowAbbr r = ""
          · rw [if_pos hb]
          · rw [if_neg hb]
            exact dictGetD_setdefault_zero st.counters (rowAbbr r) code
        rcases hcase with ⟨_, hst⟩ | ⟨hne, hst⟩
        · -- no record appended: counters only gain a (zero) default
          refine ih st2 st' h ?_ ?_
          · rw [hst]
            intro _
            exact hkey0
          · rw [hst]
            intro code
            simp only
            rw [hget0 code]
            exact h2 code
        · -- a record is appended and its constellation's counter bumped
          refine ih st2 st' h ?_ ?_
          · rw [hst]
            intro _
            simp only
            rw [dictHasKey_bump]
            exact hkey0
          · rw [hst]
            intro code
            simp only [List.filter_append, List.map_append]
            by_cases hc : (procCurrent st r == code) = true
            · have hceq : procCurrent st r = code := by simpa using hc
              rw [List.filter_cons, List.filter_nil]
              simp only [hc, ite_true]
              subst hceq
              rw [dictGetD_bump_self (procCounters st r) (procCurrent st r) hkey0,
                hget0 (procCurrent st r)]
              rw [h2 (procCurrent st r), List.map_cons, List.map_nil]
              rw [List.range'_concat]
              simp [dictGetD_bump_self (procCounters st r) (procCurrent st r) hkey0,
                hget0 (procCurrent st r), Nat.add_comm]
            · have hcf : (procCurrent st r == code) = false := by simpa using hc
              have hcne : code ≠ procCurrent st r := by
                intro hcc
                rw [hcc] at hcf
                simp at hcf
              rw [List.filter_cons, List.filter_nil]
              simp only [hcf, Bool.false_eq_true, ite_false]
              rw [dictGetD_bump_ne (procCounters st r) (procCurrent st r) code hcne,
                hget0 code]
              simpa using h2 code

/-! ## Claim C4 (confirmed) -/

/-- C4: for every constellation code, the `line_number` values of that
code's records, in output order, are exactly the dense sequence
`1, 2, ..., k` (where `k` is the number of records for that code); and the
counter increments only for rows producing at least one star id, so every
record in the output has a nonempty `star_ids` — all-blank rows are
excluded and leave the per-constellation counter unchanged. -/
theorem claim4_dense_numbering (rows : List Row)
    (recs : List ConstellationLine) (h : load rows = Except.ok recs) :
    (∀ code, (recs.filter (fun l => l.constellation == code)).map
        (fun l => l.line_number)
      = List.range' 1 ((recs.filter (fun l => l.constellation == code)).length))
    ∧ ∀ l ∈ recs, l.star_ids ≠ [] := by
  unfold load at h
  split at h
  · cases h
  · rename_i st hst
    cases h
    constructor
    · intro code
      have hinv := loadFrom_numbering rows ⟨"", [], []⟩ st hst
        (by intro hc; simp at hc) (by intro code; rfl)
      have h2 := hinv.2 code
      have hlen : (st.lines.filter (fun l => l.constellation == code)).length
          = dictGetD st.counters code 0 := by
        have h3 := congrArg List.length h2
        rw [List.length_map, List.length_range'] at h3
        exact h3
      rw [h2, hlen]
    · have hb := loadFrom_star_bounds rows ⟨"", [], []⟩ st hst
        (by intro l hl; simp at hl)
      intro l hl hnil
      have hlb := (hb l hl).1
      rw [hnil] at hlb
      simp at hlb

theorem claim4_witness :
    (load [⟨[("abr", "AND"), ("nr", "2"), ("s01", "1"), ("s02", "2")]⟩,
           ⟨[("abr", ""), ("nr", "0")]⟩,
           ⟨[("abr", "AND"), ("nr", "2"), ("s01", "3"), ("s02", "4")]⟩]
      = Except.ok [⟨"AND", 1, [1, 2]⟩, ⟨"AND", 2, [3, 4]⟩])
    ∧ (([⟨"AND", 1, [1, 2]⟩, (⟨"AND", 2, [3, 4]⟩ : ConstellationLine)].filter
          (fun l => l.constellation == "AND")).map (fun l => l.line_number)
        = List.range' 1
            (([⟨"AND", 1, [1, 2]⟩, (⟨"AND", 2, [3, 4]⟩ : ConstellationLine)].filter
              (fun l => l.constellation == "AND")).length)) :=
  ⟨by decide,
   (claim4_dense_numbering
     [⟨[("abr", "AND"), ("nr", "2"), ("s01", "1"), ("s02", "2")]⟩,
      ⟨[("abr", ""), ("nr", "0")]⟩,
      ⟨[("abr", "AND"), ("nr", "2"), ("s01", "3"), ("s02", "4")]⟩]
     [⟨"AND", 1, [1, 2]⟩, ⟨"AND", 2, [3, 4]⟩] (by decide)).1 "AND"⟩

theorem loadFrom_append (xs ys : List Row) :
    ∀ st, loadFrom st (xs ++ ys)
      = match loadFrom st xs with
        | Except.ok st2 => loadFrom st2 ys
        | Except.error e => Except.error e := by
  induction xs with
  | nil => intro st; rfl
  | cons r xs ih =>
    intro st
    rw [List.cons_append]
    simp only [loadFrom]
    cases hp : processRow st r with
    | error e => simp only [hp]
    | ok st2 =>
      simp only [hp]
      exact ih st2

theorem loadFrom_current (rows : List Row) :
    ∀ st st', loadFrom st rows = Except.ok st' →
      st'.current = lastAbbr st.current rows := by
  induction rows with
  | nil =>
    intro st st' h
    cases h
    rfl
  | cons r rows ih =>
    intro st st' h
    unfold loadFrom at h
    split at h
    · cases h
    · rename_i st2 hstep
      have h2 := ih st2 st' h
      unfold lastAbbr
      rcases processRow_ok_cases st r st2 hstep with ⟨hb, _, hst⟩ | ⟨_, _, _, hcase⟩
      · rw [h2, hst, if_pos hb]
      · have hcur : st2.current = procCurrent st r := by
          rcases hcase with ⟨_, hst⟩ | ⟨_, hst⟩ <;> rw [hst]
        rw [h2, hcur]
        rfl

/-! ## Claim C6 (confirmed) -/

/-- C6: a row with a blank abbreviation that follows at least one row with
a non-blank abbreviation is attributed, if it produces a record at all, to
the most recently seen non-blank constellation code; appending such a row
to an accepted input adds at most one record and that record's
constellation is the carry-over code. -/
theorem claim6_carry_over (rows : List Row) (r : Row)
    (recs recs' : List ConstellationLine) (c : String)
    (hblank : rowAbbr r = "")
    (hlast : lastAbbr "" rows = c) (hc : c ≠ "")
    (h1 : load rows = Except.ok recs)
    (h2 : load (rows ++ [r]) = Except.ok recs') :
    recs' = recs ∨ ∃ l, recs' = recs ++ [l] ∧ l.constellation = c := by
  unfold load at h1 h2
  rw [loadFrom_append rows [r] ⟨"", [], []⟩] at h2
  cases hl1 : loadFrom ⟨"", [], []⟩ rows with
  | error e => rw [hl1] at h1; cases h1
  | ok st =>
    rw [hl1] at h1 h2
    have hlines : st.lines = recs := by cases h1; rfl
    have hcur : st.current = c := by
      have hcl := loadFrom_current rows ⟨"", [], []⟩ st hl1
      rw [hcl, hlast]
    cases hstep : processRow st r with
    | error e =>
      simp only [loadFrom, hstep] at h2
      simp at h2
    | ok st2 =>
      simp only [loadFrom, hstep] at h2
      have hlines2 : st2.lines = recs' := by cases h2; rfl
      rcases processRow_ok_cases st r st2 hstep with ⟨_, hcur0, _⟩ | ⟨_, cells, _, hcase⟩
      · exact absurd (hcur0 ▸ hcur) (by intro hcc; exact hc hcc.symm)
      · rcases hcase with ⟨_, hst⟩ | ⟨_, hst⟩
        · left
          rw [← hlines2, hst, hlines]
        · right
          refine ⟨⟨procCurrent st r,
            dictGetD (dictBump (procCounters st r) (procCurrent st r))
              (procCurrent st r) 0, cells.filterMap id⟩, ?_, ?_⟩
          · rw [← hlines2, hst, hlines]
          · show procCurrent st r = c
            unfold procCurrent
            rw [if_pos hblank, hcur]

theorem claim6_witness :
    ([⟨"AND", 1, [5]⟩, (⟨"AND", 2, [9]⟩ : ConstellationLine)] = [⟨"AND", 1, [5]⟩]
      ∨ ∃ l, [⟨"AND", 1, [5]⟩, (⟨"AND", 2, [9]⟩ : ConstellationLine)]
          = [⟨"AND", 1, [5]⟩] ++ [l] ∧ l.constellation = "AND") :=
  claim6_carry_over [⟨[("abr", "AND"), ("s01", "5")]⟩] ⟨[("s01", "9")]⟩
    [⟨"AND", 1, [5]⟩] [⟨"AND", 1, [5]⟩, ⟨"AND", 2, [9]⟩] "AND"
    (by decide) (by decide) (by decide) (by decide) (by decide)

/-! ## Well-formed rows and the raise condition -/

theorem except_isOk_eq (e : Except String (Option Int))
    (h : e.isOk = true) : e = Except.ok (okValD e) := by
  cases e with
  | ok v => rfl
  | error e => simp [Except.isOk, Except.toBool] at h

theorem parseStarCells_wf (r : Row) :
    ∀ cols : List String,
      (∀ c ∈ cols, (parse_int (r.get c)).isOk = true) →
      parseStarCells r cols
        = Except.ok (cols.map (fun c => okValD (parse_int (r.get c)))) := by
  intro cols
  induction cols with
  | nil => intro _; rfl
  | cons c cols ih =>
    intro hall
    have hc := hall c (List.mem_cons_self c cols)
    have hrest := ih (fun c hcmem => hall c (List.mem_cons_of_mem _ hcmem))
    rw [parseStarCells, except_isOk_eq _ hc, hrest]
    rfl

theorem filterMap_id_map {α β : Type} (g : α → Option β) (l : List α) :
    (l.map g).filterMap id = l.filterMap g := by
  induction l with
  | nil => rfl
  | cons a l ih =>
    simp only [List.map_cons, List.filterMap_cons]
    cases g a <;> simp [ih]

theorem processRow_mismatch (st : LoadState) (r : Row)
    (hg : ¬(rowAbbr r = "" ∧ st.current = ""))
    (hwf : rowWF r = true) (hm : rowMismatch r = true) :
    ∃ e, processRow st r = Except.error e := by
  have hnr : (parse_int (r.get "nr")).isOk = true := by
    unfold rowWF at hwf
    exact (Bool.and_eq_true_iff.mp hwf).1
  have hcols : ∀ c ∈ STAR_COLUMNS, (parse_int (r.get c)).isOk = true := by
    unfold rowWF at hwf
    exact List.all_eq_true.mp (Bool.and_eq_true_iff.mp hwf).2
  have hnr_eq : parse_int (r.get "nr") = Except.ok (rowDeclared r) :=
    except_isOk_eq _ hnr
  have hcells := parseStarCells_wf r STAR_COLUMNS hcols
  have hfm : (STAR_COLUMNS.map (fun c => okValD (parse_int (r.get c)))).filterMap id
      = rowStarIds r := filterMap_id_map _ _
  refine ⟨"Row for " ++ (if rowAbbr r = "" then st.current else rowAbbr r)
    ++ " expected stars mismatch", ?_⟩
  simp only [processRow, if_neg hg, hnr_eq, hcells, hfm]
  have hm2 : countMismatch (rowDeclared r) (rowStarIds r).length = true := hm
  rw [hm2]
  rfl

theorem processRow_no_mismatch (st : LoadState) (r : Row)
    (hg : ¬(rowAbbr r = "" ∧ st.current = ""))
    (hwf : rowWF r = true) (hm : rowMismatch r = false) :
    ∃ st1, processRow st r = Except.ok st1 ∧ st1.current = procCurrent st r := by
  have hnr : (parse_int (r.get "nr")).isOk = true := by
    unfold rowWF at hwf
    exact (Bool.and_eq_true_iff.mp hwf).1
  have hcols : ∀ c ∈ STAR_COLUMNS, (parse_int (r.get c)).isOk = true := by
    unfold rowWF at hwf
    exact List.all_eq_true.mp (Bool.and_eq_true_iff.mp hwf).2
  have hnr_eq : parse_int (r.get "nr") = Except.ok (rowDeclared r) :=
    except_isOk_eq _ hnr
  have hcells := parseStarCells_wf r STAR_COLUMNS hcols
  have hfm : (STAR_COLUMNS.map (fun c => okValD (parse_int (r.get c)))).filterMap id
      = rowStarIds r := filterMap_id_map _ _
  have hm2 : countMismatch (rowDeclared r) (rowStarIds r).length = false := hm
  by_cases hemp : (rowStarIds r).isEmpty = true
  · refine ⟨⟨procCurrent st r, procCounters st r, st.lines⟩, ?_, rfl⟩
    simp only [processRow, if_neg hg, hnr_eq, hcells, hfm, hm2,
      Bool.false_eq_true, ite_false, hemp, ite_true]
    rfl
  · have hempf : (rowStarIds r).isEmpty = false := by simpa using hemp
    refine ⟨⟨procCurrent st r,
      dictBump (procCounters st r) (procCurrent st r),
      st.lines ++ [⟨procCurrent st r,
        dictGetD (dictBump (procCounters st r) (procCurrent st r))
          (procCurrent st r) 0, rowStarIds r⟩]⟩, ?_, rfl⟩
    simp only [processRow, if_neg hg, hnr_eq, hcells, hfm, hm2,
      Bool.false_eq_true, ite_false, hempf]
    rfl

theorem loadFrom_error_iff (rows : List Row) :
    ∀ st : LoadState, (∀ r ∈ rows, rowWF r = true) →
      ((loadFrom st rows).isOk = false
        ↔ ∃ r ∈ processedRows (st.current != "") rows, rowMismatch r = true) := by
  induction rows with
  | nil =>
    intro st _
    constructor
    · intro h
      simp [loadFrom, Except.isOk, Except.toBool] at h
    · rintro ⟨r, hr, _⟩
      simp [processedRows] at hr
  | cons r rows ih =>
    intro st hwf
    have hwf_r := hwf r (List.mem_cons_self r rows)
    have hwf_rs : ∀ x ∈ rows, rowWF x = true :=
      fun x hx => hwf x (List.mem_cons_of_mem _ hx)
    by_cases hg : rowAbbr r = "" ∧ st.current = ""
    · have hproc : processRow st r = Except.ok st := by
        simp only [processRow, if_pos hg]
      have hLHS : loadFrom st (r :: rows) = loadFrom st rows := by
        simp only [loadFrom, hproc]
      have hbne : (st.current != "") = false := by simp [hg.2]
      have hpr : processedRows (st.current != "") (r :: rows)
          = processedRows false rows := by
        rw [hbne]
        simp [processedRows, hg.1]
      have hih := ih st hwf_rs
      rw [hbne] at hih
      rw [hLHS, hpr]
      exact hih
    · have hcur_ne : procCurrent st r ≠ "" := by
        unfold procCurrent
        by_cases hb : rowAbbr r = ""
        · rw [if_pos hb]
          exact fun hc => hg ⟨hb, hc⟩
        · rw [if_neg hb]
          exact hb
      have hpr : processedRows (st.current != "") (r :: rows)
          = r :: processedRows true rows := by
        by_cases hb : rowAbbr r = ""
        · have hcur : st.current ≠ "" := fun hc => hg ⟨hb, hc⟩
          have hbne : (st.current != "") = true := by simp [bne_iff_ne, hcur]
          rw [hbne]
          simp [processedRows, hb]
        · simp [processedRows, hb]
      by_cases hm : rowMismatch r = true
      · obtain ⟨e, hproc⟩ := processRow_mismatch st r hg hwf_r hm
        have hLHS : (loadFrom st (r :: rows)).isOk = false := by
          simp [loadFrom, hproc, Except.isOk, Except.toBool]
        rw [hpr]
        exact iff_of_true hLHS ⟨r, List.mem_cons_self r (processedRows true rows), hm⟩
      · have hmf : rowMismatch r = false := by simpa using hm
        obtain ⟨st1, hproc, hcur1⟩ := processRow_no_mismatch st r hg hwf_r hmf
        have hLHS : loadFrom st (r :: rows) = loadFrom st1 rows := by
          simp only [loadFrom, hproc]
        have hbne1 : (st1.current != "") = true := by
          rw [hcur1]
          simp [bne_iff_ne, hcur_ne]
        have hih := ih st1 hwf_rs
        rw [hbne1] at hih
        rw [hLHS, hpr, hih]
        constructor
        · rintro ⟨x, hx, hmx⟩
          exact ⟨x, List.mem_cons_of_mem _ hx, hmx⟩
        · rintro ⟨x, hx, hmx⟩
          rcases List.mem_cons.mp hx with hxr | hx2
          · subst hxr
            rw [hmf] at hmx
            cases hmx
          · exact ⟨x, hx2, hmx⟩

/-! ## Claim C3 (corrected) -/

/-- C3, counterexample to the claim as stated: a processed row whose `nr`
cell is non-integer text makes `load` raise (the `int(...)` conversion
fails), even though no processed row carries a declared star-count value
disagreeing with its parsed star cells — so "raises if and only if some
processed row has a count mismatch" is false without a well-formedness
restriction. -/
theorem claim3_counterexample :
    (∃ e, load [⟨[("abr", "AND"), ("nr", "abc")]⟩] = Except.error e)
    ∧ (processedRows false [⟨[("abr", "AND"), ("nr", "abc")]⟩]).all
        (fun r => !rowMismatch r) = true :=
  ⟨⟨"invalid literal for int: abc", by decide⟩, by decide⟩

/-- C3 (amended): restricted to inputs whose `nr` and star cells are each
blank, absent, or well-formed integer text, `load` raises if and only if
some row, processed after a current constellation has been established,
carries a declared star-count value that differs from the number of
non-blank star cells parsed from that row.  (In particular a row with
declared count 0 and no star ids does not raise, and a raise returns no
record list; rows with unparseable integer cells additionally raise with a
conversion error, outside this restriction.) -/
theorem claim3_raise_iff_mismatch (rows : List Row)
    (hwf : ∀ r ∈ rows, rowWF r = true) :
    (∃ e, load rows = Except.error e)
      ↔ ∃ r ∈ processedRows false rows, rowMismatch r = true := by
  have h := loadFrom_error_iff rows ⟨"", [], []⟩ hwf
  have hbne : ((⟨"", [], []⟩ : LoadState).current != "") = false := rfl
  rw [hbne] at h
  rw [← h]
  unfold load
  cases hl : loadFrom ⟨"", [], []⟩ rows with
  | ok st =>
    constructor
    · rintro ⟨e, he⟩
      cases he
    · intro hfalse
      simp [Except.isOk, Except.toBool] at hfalse
  | error e =>
    constructor
    · intro _
      rfl
    · intro _
      exact ⟨e, rfl⟩

theorem claim3_witness :
    (∀ r ∈ [(⟨[("abr", "AND"), ("nr", "5"), ("s01", "3"), ("s02", "1"), ("s03", "2")]⟩ : Row)],
      rowWF r = true)
    ∧ ((∃ e, load [(⟨[("abr", "AND"), ("nr", "5"), ("s01", "3"), ("s02", "1"), ("s03", "2")]⟩ : Row)]
          = Except.error e)
        ↔ ∃ r ∈ processedRows false
            [(⟨[("abr", "AND"), ("nr", "5"), ("s01", "3"), ("s02", "1"), ("s03", "2")]⟩ : Row)],
          rowMismatch r = true) :=
  ⟨by decide,
   claim3_raise_iff_mismatch
     [⟨[("abr", "AND"), ("nr", "5"), ("s01", "3"), ("s02", "1"), ("s03", "2")]⟩]
     (by decide)⟩

/-! ## Missing columns read back as blank cells -/

theorem fill_find (cols : List String) (c : String) :
    (cols.map (fun x => (x, ""))).find? (fun p => p.1 == c)
      = if c ∈ cols then some (c, "") else none := by
  induction cols with
  | nil => simp
  | cons x cols ih =>
    simp only [List.map_cons, List.find?_cons]
    by_cases hx : (x == c) = true
    · have hxc : x = c := by simpa using hx
      subst hxc
      simp [hx]
    · have hxf : (x == c) = false := by simpa using hx
      have hne : c ≠ x := by
        intro hh
        rw [hh] at hxf
        simp at hxf
      simp only [hxf]
      rw [ih]
      by_cases hmem : c ∈ cols
      · rw [if_pos hmem, if_pos (List.mem_cons_of_mem _ hmem)]
      · rw [if_neg hmem, if_neg (by simp [List.mem_cons, hne, hmem])]

theorem get_fill_present (r : Row) (c : String)
    (h : (r.get c).isSome = true) : (fillMissing r).get c = r.get c := by
  simp only [fillMissing, Row.get] at h ⊢
  rw [List.find?_append]
  cases hf : r.cells.find? (fun p => p.1 == c) with
  | some p => simp [hf]
  | none => rw [hf] at h; simp at h

theorem get_fill_absent (r : Row) (c : String) (h : r.get c = none)
    (hc : c ∈ "nr" :: STAR_COLUMNS) : (fillMissing r).get c = some "" := by
  simp only [Row.get] at h
  have hf : r.cells.find? (fun p => p.1 == c) = none := by
    cases hf : r.cells.find? (fun p => p.1 == c) with
    | none => rfl
    | some p => rw [hf] at h; simp at h
  simp only [fillMissing, Row.get]
  rw [List.find?_append, hf, Option.none_or, fill_find, if_pos hc]
  rfl

theorem get_fill_other (r : Row) (c : String)
    (hc : ¬c ∈ "nr" :: STAR_COLUMNS) : (fillMissing r).get c = r.get c := by
  simp only [fillMissing, Row.get]
  rw [List.find?_append, fill_find, if_neg hc]
  cases hf : r.cells.find? (fun p => p.1 == c) <;> simp [hf]

theorem parse_int_fill (r : Row) (c : String) (hc : c ∈ "nr" :: STAR_COLUMNS) :
    parse_int ((fillMissing r).get c) = parse_int (r.get c) := by
  cases hro : r.get c with
  | some s =>
    rw [get_fill_present r c (by rw [hro]; rfl), hro]
  | none =>
    rw [get_fill_absent r c hro hc]
    rfl

theorem rowAbbr_fill (r : Row) : rowAbbr (fillMissing r) = rowAbbr r := by
  unfold rowAbbr
  rw [get_fill_other r "abr" (by decide)]

theorem parseStarCells_fill (r : Row) :
    ∀ cols : List String, (∀ c ∈ cols, c ∈ "nr" :: STAR_COLUMNS) →
      parseStarCells (fillMissing r) cols = parseStarCells r cols := by
  intro cols
  induction cols with
  | nil => intro _; rfl
  | cons c cols ih =>
    intro hsub
    unfold parseStarCells
    rw [parse_int_fill r c (hsub c (List.mem_cons_self c cols)),
      ih (fun x hx => hsub x (List.mem_cons_of_mem _ hx))]

theorem processRow_fill (st : LoadState) (r : Row) :
    processRow st (fillMissing r) = processRow st r := by
  unfold processRow
  rw [rowAbbr_fill,
    parse_int_fill r "nr" (List.mem_cons_self "nr" STAR_COLUMNS),
    parseStarCells_fill r STAR_COLUMNS (fun x hx => List.mem_cons_of_mem _ hx)]

theorem loadFrom_fill (rows : List Row) :
    ∀ st, loadFrom st (rows.map fillMissing) = loadFrom st rows := by
  induction rows with
  | nil => intro st; rfl
  | cons r rows ih =>
    intro st
    simp only [List.map_cons, loadFrom, processRow_fill]
    cases processRow st r with
    | error e => rfl
    | ok st2 => exact ih st2

/-! ## Claim C9 (confirmed) -/

/-- C9: a CSV whose header lacks the declared-count column `nr` or any of
the star columns `s01`..`s31` parses exactly like one in which every
missing column is present with a blank cell: `load` over rows with those
columns filled blank equals `load` over the original rows (so a missing
column never causes a failure by itself — absent and blank cells are
interchangeable). -/
theorem claim9_missing_columns_blank (rows : List Row) :
    load (rows.map fillMissing) = load rows := by
  unfold load
  rw [loadFrom_fill rows ⟨"", [], []⟩]

/-! ## Claim C10 (corrected) -/

/-- C10, counterexample to the claim as stated: the star id `2^63` parses
and is accepted by `load` unchanged, but it is not "persisted unchanged as
the bsc_number of its star row": binding it overflows SQLite's signed
64-bit integer parameter, the import raises, and no star row is
persisted. -/
theorem claim10_counterexample :
    (load [starCellRow "9223372036854775808"]
      = Except.ok [⟨"AND", 1, [9223372036854775808]⟩])
    ∧ (import_to_db ⟨[], [], 1⟩
        [⟨"AND", 1, [9223372036854775808]⟩]).1.constellation_line_star = []
    ∧ (import_to_db ⟨[], [], 1⟩
        [⟨"AND", 1, [9223372036854775808]⟩]).2 ≠ Except.ok () := by
  decide

/-- C10 (amended): star-id cells undergo no range or sign validation in
the script itself — any cell whose stripped text parses as an integer,
including zero and negative values, is accepted by `load` unchanged — and
the value is persisted unchanged as the `bsc_number` of its star row
provided it fits SQLite's signed 64-bit integer range (otherwise the
insert raises OverflowError). -/
theorem claim10_integer_cells_accepted (s : String) (v : Int) (db : DB)
    (hv : strToInt? (pyStrip s) = some v) (hfit : fitsInt64 v = true) :
    load [starCellRow s] = Except.ok [⟨"AND", 1, [v]⟩]
    ∧ import_to_db db [⟨"AND", 1, [v]⟩]
      = (⟨[⟨1, "AND", 1, 1⟩], [⟨1, 1, v⟩], 2⟩, Except.ok ()) := by
  have hne : pyStrip s ≠ "" := by
    intro h0
    rw [h0] at hv
    rw [show strToInt? "" = none from rfl] at hv
    cases hv
  have hps : parse_int (some s) = Except.ok (some v) := by
    simp only [parse_int]
    rw [if_neg hne, hv]
  have hget : (starCellRow s).get "s01" = some s := rfl
  have hcells : parseStarCells (starCellRow s) STAR_COLUMNS
      = Except.ok (some v :: List.replicate 30 none) := by
    simp only [STAR_COLUMNS, parseStarCells, hget, hps]
    rfl
  have hproc : processRow ⟨"", [], []⟩ (starCellRow s)
      = Except.ok ⟨"AND", [("AND", 1)], [⟨"AND", 1, [v]⟩]⟩ := by
    simp only [processRow, hcells]
    rfl
  constructor
  · simp only [load, loadFrom, hproc]
  · simp only [import_to_db, insert_lines, insertLine, insertStars,
      bindInt64, hfit]
    rfl

theorem claim10_witness :
    (strToInt? (pyStrip " -7 ") = some (-7))
    ∧ (fitsInt64 (-7) = true)
    ∧ (load [starCellRow " -7 "] = Except.ok [⟨"AND", 1, [-7]⟩]
       ∧ import_to_db ⟨[], [], 1⟩ [⟨"AND", 1, [-7]⟩]
         = (⟨[⟨1, "AND", 1, 1⟩], [⟨1, 1, -7⟩], 2⟩, Except.ok ())) :=
  ⟨by decide, by decide,
   claim10_integer_cells_accepted " -7 " (-7) ⟨[], [], 1⟩ (by decide) (by decide)⟩
